import Mathlib

/-!
Shallow embedding of `src/util/parse_getdata_log.py`.

The script reads a getdata debug log line by line and writes one CSV row per
completed request.  Its core is the loop body of `main` (lines 17-40): split
each record into date, time and message, parse the timestamp, then dispatch on
the message's leading text ("Running getData" start marker, "Retrieving file "
file marker, "Returning status" completion marker), threading the mutable
variables `datacenter`, `filename`, `starttime`, `request` across lines.

Strings are modelled as `List Char`.  Python's whitespace splitting, `strip`,
slicing and `startswith` are reproduced below; `datetime.strptime` with the
fixed format `%Y/%m/%d %H:%M:%S` is modelled by `strptimeDT`; `timedelta`
subtraction is modelled on an absolute-second count (`secsI`).  Out-of-range
positional indexing (`parts[3]`, `parts[8]`, `parts[2]`), which raises
`IndexError` in Python and aborts the run, is modelled by `Except StepErr`.
-/

deriving instance DecidableEq for Except

namespace GetDataLog

/-- Whitespace class used by Python's `str.split` and `str.strip` for the
ASCII range that can occur in these logs. -/
def isSpace (c : Char) : Bool :=
  c = ' ' || c = '\t' || c = '\n' || c = '\r' || c = '\x0b' || c = '\x0c'

/-- Python `s.split()` (no arguments): split on whitespace runs, no empty
tokens. -/
def pySplit (s : List Char) : List (List Char) :=
  (s.splitOnP isSpace).filter (fun t => !t.isEmpty)

/-- Python `s.split(maxsplit=2)`: at most two splits; the third element is the
remainder with its leading whitespace removed but trailing whitespace kept. -/
def pySplitMax2 (s : List Char) : List (List Char) :=
  let s1 := s.dropWhile isSpace
  if s1.isEmpty then []
  else
    let t1 := s1.takeWhile (fun c => !isSpace c)
    let r1 := (s1.dropWhile (fun c => !isSpace c)).dropWhile isSpace
    if r1.isEmpty then [t1]
    else
      let t2 := r1.takeWhile (fun c => !isSpace c)
      let r2 := (r1.dropWhile (fun c => !isSpace c)).dropWhile isSpace
      if r2.isEmpty then [t1, t2] else [t1, t2, r2]

/-- Python `s.strip()`: remove leading and trailing whitespace. -/
def pyStrip (s : List Char) : List Char :=
  ((s.dropWhile isSpace).reverse.dropWhile isSpace).reverse

/-- Value of an all-digit token; `none` if the token is empty or holds a
non-digit. -/
def digitsVal (s : List Char) : Option Nat :=
  if s.isEmpty || s.any (fun c => !c.isDigit) then none
  else some (s.foldl (fun a c => a * 10 + (c.toNat - 48)) 0)

/-- Gregorian leap-year rule, as in Python's `datetime`. -/
def isLeap (y : Nat) : Bool :=
  (y % 4 == 0 && y % 100 != 0) || y % 400 == 0

/-- Number of days in month `m` of year `y` (months 1..12). -/
def daysInMonth (y m : Nat) : Nat :=
  if m = 2 then (if isLeap y then 29 else 28)
  else if m = 4 ∨ m = 6 ∨ m = 9 ∨ m = 11 then 30
  else 31

/-- A parsed `datetime.datetime` value (whole seconds only, which is all the
fixed format `%Y/%m/%d %H:%M:%S` can produce). -/
structure Timestamp where
  year : Nat
  month : Nat
  day : Nat
  hour : Nat
  minute : Nat
  second : Nat
deriving DecidableEq

/-- Parse the date token against `%Y/%m/%d` as CPython's `strptime` does:
`%Y` is exactly four digits, `%m` and `%d` are one or two digits, the whole
token must be consumed, and `datetime` then validates the calendar date. -/
def parseDateTok (s : List Char) : Option (Nat × Nat × Nat) :=
  match s.splitOn '/' with
  | [ys, ms, ds] => do
    let y ← digitsVal ys
    let m ← digitsVal ms
    let d ← digitsVal ds
    if ys.length = 4 ∧ 1 ≤ y ∧
       (ms.length = 1 ∨ ms.length = 2) ∧ 1 ≤ m ∧ m ≤ 12 ∧
       (ds.length = 1 ∨ ds.length = 2) ∧ 1 ≤ d ∧ d ≤ daysInMonth y m
    then some (y, m, d) else none
  | _ => none

/-- Parse the time token against `%H:%M:%S`: each field is one or two digits,
hours at most 23, minutes and seconds at most 59 (`datetime` rejects the leap
seconds 60 and 61 that the regular expression alone would admit). -/
def parseTimeTok (s : List Char) : Option (Nat × Nat × Nat) :=
  match s.splitOn ':' with
  | [hs, ms, ss] => do
    let h ← digitsVal hs
    let m ← digitsVal ms
    let sec ← digitsVal ss
    if (hs.length = 1 ∨ hs.length = 2) ∧ h ≤ 23 ∧
       (ms.length = 1 ∨ ms.length = 2) ∧ m ≤ 59 ∧
       (ss.length = 1 ∨ ss.length = 2) ∧ sec ≤ 59
    then some (h, m, sec) else none
  | _ => none

/-- Model of `datetime.datetime.strptime(f"{rdate} {rtime}", "%Y/%m/%d %H:%M:%S")`
applied to the two whitespace-free tokens. -/
def strptimeDT (d t : List Char) : Option Timestamp := do
  let (y, mo, da) ← parseDateTok d
  let (h, mi, s) ← parseTimeTok t
  pure ⟨y, mo, da, h, mi, s⟩

/-- Days of year `y` that precede month `m`. -/
def daysBeforeMonth (y m : Nat) : Nat :=
  (List.range (m - 1)).foldl (fun a i => a + daysInMonth y (i + 1)) 0

/-- Proleptic Gregorian ordinal of the date (day 1 = 0001-01-01), as in
Python's `datetime.toordinal`, shifted by one so 0001-01-01 maps to 0. -/
def toOrdinal (t : Timestamp) : Nat :=
  365 * (t.year - 1) + (t.year - 1) / 4 - (t.year - 1) / 100 + (t.year - 1) / 400
    + daysBeforeMonth t.year t.month + (t.day - 1)

/-- Absolute second count of a timestamp; differences of these are exactly
`timedelta.total_seconds()` for whole-second datetimes. -/
def secsN (t : Timestamp) : Nat :=
  toOrdinal t * 86400 + t.hour * 3600 + t.minute * 60 + t.second

/-- Signed absolute second count. -/
def secsI (t : Timestamp) : Int := (secsN t : Int)

/-- Decimal digits of a natural number. -/
def natChars (n : Nat) : List Char := Nat.toDigits 10 n

/-- Zero-padded decimal rendering of width `w`, as in `strftime`. -/
def padNum (w n : Nat) : List Char :=
  List.replicate (w - (natChars n).length) '0' ++ natChars n

/-- Model of `starttime.strftime("%Y-%m-%d %H:%M:%S")`. -/
def fmtDT (t : Timestamp) : List Char :=
  padNum 4 t.year ++ '-' :: padNum 2 t.month ++ '-' :: padNum 2 t.day
    ++ ' ' :: padNum 2 t.hour ++ ':' :: padNum 2 t.minute ++ ':' :: padNum 2 t.second

/-- Decimal rendering of an integer. -/
def intChars (i : Int) : List Char :=
  if i < 0 then '-' :: natChars i.natAbs else natChars i.natAbs

/-- Model of `str((logtime-starttime).total_seconds())` for a whole number of
seconds: Python prints such a float as the integer followed by `.0` (every
reachable difference is far below the 1e16 magnitude where `str` would switch
to exponent form). -/
def totalSecondsStr (i : Int) : List Char := intChars i ++ ".0".data

/-- One output CSV row, as passed to `csvw.writerow` on line 38. -/
structure Row where
  datetime : List Char
  datacenter : List Char
  request : List Char
  filename : List Char
  status : List Char
  seconds : List Char
deriving DecidableEq

/-- The mutable variables of `main` threaded across loop iterations.
`starttime` and `request` are unassigned in Python until the first start
marker; they are only ever read when `datacenter` is non-null, which first
happens after a start marker has assigned all three, so the initial values
below are never observed. -/
structure MState where
  datacenter : Option (List Char)
  filename : List Char
  starttime : Timestamp
  request : List Char
deriving DecidableEq

/-- State at the top of the loop: `datacenter=None`, `filename=''` (line 15-16). -/
def initState : MState := ⟨none, [], ⟨1, 1, 1, 0, 0, 0⟩, []⟩

/-- An uncaught Python exception: positional indexing past the end of the
token list (`parts[3]`, `parts[8]`, `parts[2]`) raises `IndexError`, which no
handler catches, so the process aborts. -/
inductive StepErr where
  | indexError
deriving DecidableEq

/-- Message head marking a start line (line 26). -/
def runningPfx : List Char := "Running getData".data

/-- Message head marking a file line (line 31). -/
def retrievingPfx : List Char := "Retrieving file ".data

/-- Message head marking a completion line (line 33). -/
def returningPfx : List Char := "Returning status".data

/-- One iteration of the loop body of `main` (lines 18-40) on one input
line.  Returns the successor state and the rows written during the iteration,
or the uncaught exception that aborts the process. -/
def step (st : MState) (record : List Char) : Except StepErr (MState × List Row) :=
  match pySplitMax2 record with
  | [rdate, rtime, message] =>
    match strptimeDT rdate rtime with
    | none => .ok (st, [])
    | some logtime =>
      if runningPfx.isPrefixOf message then
        match (pySplit message)[3]?, (pySplit message)[8]? with
        | some dc, some req => .ok (⟨some dc, st.filename, logtime, req⟩, [])
        | _, _ => .error .indexError
      else if retrievingPfx.isPrefixOf message then
        .ok (⟨st.datacenter, pyStrip (message.drop 16), st.starttime, st.request⟩, [])
      else if returningPfx.isPrefixOf message then
        match (pySplit message)[2]? with
        | none => .error .indexError
        | some stok =>
          match st.datacenter with
          | some dc =>
            .ok (⟨none, [], st.starttime, st.request⟩,
                 [⟨fmtDT st.starttime, dc, st.request, st.filename, stok.take 4,
                   totalSecondsStr (secsI logtime - secsI st.starttime)⟩])
          | none => .ok (st, [])
      else .ok (st, [])
  | _ => .ok (st, [])

/-- Run the loop from a given state over a list of input lines, collecting the
rows written; an uncaught exception stops the run (rows already written
stand). -/
def runFrom (st : MState) : List (List Char) → List Row × Except StepErr MState
  | [] => ([], .ok st)
  | l :: ls =>
    match step st l with
    | .error e => ([], .error e)
    | .ok (st', rs) =>
      let rec' := runFrom st' ls
      (rs ++ rec'.1, rec'.2)

/-- Full run of `main`'s loop from the initial state. -/
def run (lines : List (List Char)) : List Row × Except StepErr MState :=
  runFrom initState lines

/-- The data rows the script writes for the given input lines (the constant
header row of line 14 aside). -/
def records (lines : List (List Char)) : List Row := (run lines).1

/-- The three input lines of the spec's Scenario A. -/
def scenLine1 : List Char :=
  "2024/01/15 10:00:00 Running getData req from site DC1 to node X for REQ123 now".data

/-- Scenario A, second line. -/
def scenLine2 : List Char := "2024/01/15 10:00:02 Retrieving file /data/abc.dat".data

/-- Scenario A, third line. -/
def scenLine3 : List Char := "2024/01/15 10:00:05 Returning status 2000 OK".data

/-- Scenario A input. -/
def scenarioA : List (List Char) := [scenLine1, scenLine2, scenLine3]

/-! ### Line classification and run-level invariants -/

/-- A line the loop treats as a start marker: three parts, parsable
timestamp, message opening with "Running getData". -/
def isStartMarker (record : List Char) : Bool :=
  match pySplitMax2 record with
  | [rdate, rtime, message] => (strptimeDT rdate rtime).isSome && runningPfx.isPrefixOf message
  | _ => false

/-- A line the loop treats as a completion marker: three parts, parsable
timestamp, message opening with "Returning status". -/
def isCompletionMarker (record : List Char) : Bool :=
  match pySplitMax2 record with
  | [rdate, rtime, message] => (strptimeDT rdate rtime).isSome && returningPfx.isPrefixOf message
  | _ => false

/-- The timestamp a line contributes, if its first two tokens parse. -/
def lineTs (record : List Char) : Option Timestamp :=
  match pySplitMax2 record with
  | [rdate, rtime, _] => strptimeDT rdate rtime
  | _ => none

/-- The most recent line of the input that classifies as a start marker. -/
def lastStartLine : List (List Char) → Option (List Char)
  | [] => none
  | l :: ls =>
    match lastStartLine ls with
    | some l' => some l'
    | none => if isStartMarker l then some l else none

/-- One when a request is pending, zero otherwise. -/
def dcNat (st : MState) : Nat := if st.datacenter.isSome then 1 else 0

/-- Number of input lines classified as start markers. -/
def countStart (ls : List (List Char)) : Nat := ls.countP isStartMarker

/-- Number of input lines classified as completion markers. -/
def countCompletion (ls : List (List Char)) : Nat := ls.countP isCompletionMarker

/-! ### Mutual exclusivity of the three message heads

The `if`-chain on lines 26-33 tests the heads in order; the three heads
disagree within their first four characters, so at most one test can
succeed on a given message. -/

/-- A message opening with "Retrieving file " cannot open with
"Running getData". -/
theorem not_running_of_retrieving {m : List Char}
    (h : retrievingPfx.isPrefixOf m = true) : runningPfx.isPrefixOf m = false := by
  match m with
  | [] => simp [retrievingPfx] at h
  | [c] => simp [retrievingPfx, List.isPrefixOf] at h
  | c1 :: c2 :: rest =>
    simp [retrievingPfx, runningPfx, List.isPrefixOf] at h ⊢
    intro h1 h2
    exact absurd (h2.trans h.2.1.symm) (by decide)

/-- A message opening with "Returning status" cannot open with
"Running getData". -/
theorem not_running_of_returning {m : List Char}
    (h : returningPfx.isPrefixOf m = true) : runningPfx.isPrefixOf m = false := by
  match m with
  | [] => simp [returningPfx] at h
  | [c] => simp [returningPfx, List.isPrefixOf] at h
  | c1 :: c2 :: rest =>
    simp [returningPfx, runningPfx, List.isPrefixOf] at h ⊢
    intro h1 h2
    exact absurd (h2.trans h.2.1.symm) (by decide)

/-- A message opening with "Returning status" cannot open with
"Retrieving file ". -/
theorem not_retrieving_of_returning {m : List Char}
    (h : returningPfx.isPrefixOf m = true) : retrievingPfx.isPrefixOf m = false := by
  match m with
  | [] => simp [returningPfx] at h
  | [c] => simp [returningPfx, List.isPrefixOf] at h
  | [c1, c2] => simp [returningPfx, List.isPrefixOf] at h
  | [c1, c2, c3] => simp [returningPfx, List.isPrefixOf] at h
  | c1 :: c2 :: c3 :: c4 :: rest =>
    simp [returningPfx, retrievingPfx, List.isPrefixOf] at h ⊢
    intro h1 h2 h3 h4
    exact absurd (h4.trans h.2.2.2.1.symm) (by decide)

/-! ### Branch equations for `step` -/

/-- A line with fewer than three whitespace-separated parts is skipped
(line 19-20). -/
theorem step_short (st : MState) (record : List Char)
    (h : (pySplitMax2 record).length < 3) : step st record = .ok (st, []) := by
  unfold step
  match hs : pySplitMax2 record with
  | [] => rfl
  | [a] => rfl
  | [a, b] => rfl
  | a :: b :: c :: tl => rw [hs] at h; exact absurd h (by simp)

/-- A line whose date and time tokens do not parse is skipped (line 22-25). -/
theorem step_badtime (st : MState) {record rdate rtime message : List Char}
    (hsplit : pySplitMax2 record = [rdate, rtime, message])
    (hts : strptimeDT rdate rtime = none) : step st record = .ok (st, []) := by
  unfold step
  rw [hsplit]
  simp only [hts]

/-- A start-marker line with enough tokens overwrites `datacenter`,
`starttime` and `request` and leaves `filename` alone (lines 26-30). -/
theorem step_start (st : MState) {record rdate rtime message : List Char}
    {ts : Timestamp} {dc req : List Char}
    (hsplit : pySplitMax2 record = [rdate, rtime, message])
    (hts : strptimeDT rdate rtime = some ts)
    (hrun : runningPfx.isPrefixOf message = true)
    (h3 : (pySplit message)[3]? = some dc)
    (h8 : (pySplit message)[8]? = some req) :
    step st record = .ok (⟨some dc, st.filename, ts, req⟩, []) := by
  unfold step
  rw [hsplit]
  simp only [hts, hrun, if_true, h3, h8]

/-- A start-marker line with fewer than nine tokens aborts the run with an
`IndexError` (line 29-30). -/
theorem step_start_short (st : MState) {record rdate rtime message : List Char}
    {ts : Timestamp}
    (hsplit : pySplitMax2 record = [rdate, rtime, message])
    (hts : strptimeDT rdate rtime = some ts)
    (hrun : runningPfx.isPrefixOf message = true)
    (h9 : (pySplit message).length < 9) :
    step st record = .error .indexError := by
  have h8 : (pySplit message)[8]? = none := List.getElem?_eq_none (by omega)
  unfold step
  rw [hsplit]
  cases h3 : (pySplit message)[3]? with
  | none => simp only [hts, hrun, if_true, h3, h8]
  | some dc => simp only [hts, hrun, if_true, h3, h8]

/-- A file-marker line stores the stripped tail of the message in `filename`
and changes nothing else (lines 31-32). -/
theorem step_file (st : MState) {record rdate rtime message : List Char}
    {ts : Timestamp}
    (hsplit : pySplitMax2 record = [rdate, rtime, message])
    (hts : strptimeDT rdate rtime = some ts)
    (hret : retrievingPfx.isPrefixOf message = true) :
    step st record =
      .ok (⟨st.datacenter, pyStrip (message.drop 16), st.starttime, st.request⟩, []) := by
  unfold step
  rw [hsplit]
  simp only [hts, not_running_of_retrieving hret, Bool.false_eq_true, if_false, hret, if_true]

/-- A completion-marker line seen while a request is pending emits one row and
clears `datacenter` and `filename` (lines 33-40). -/
theorem step_return_emit (st : MState) {record rdate rtime message : List Char}
    {ts : Timestamp} {stok dc : List Char}
    (hsplit : pySplitMax2 record = [rdate, rtime, message])
    (hts : strptimeDT rdate rtime = some ts)
    (hrtn : returningPfx.isPrefixOf message = true)
    (hstok : (pySplit message)[2]? = some stok)
    (hdc : st.datacenter = some dc) :
    step st record =
      .ok (⟨none, [], st.starttime, st.request⟩,
        [⟨fmtDT st.starttime, dc, st.request, st.filename, stok.take 4,
          totalSecondsStr (secsI ts - secsI st.starttime)⟩]) := by
  unfold step
  rw [hsplit]
  simp only [hts, not_running_of_returning hrtn, not_retrieving_of_returning hrtn,
    Bool.false_eq_true, if_false, hrtn, if_true, hstok, hdc]

/-- A completion-marker line seen while no request is pending does nothing
(line 36). -/
theorem step_return_idle (st : MState) {record rdate rtime message : List Char}
    {ts : Timestamp} {stok : List Char}
    (hsplit : pySplitMax2 record = [rdate, rtime, message])
    (hts : strptimeDT rdate rtime = some ts)
    (hrtn : returningPfx.isPrefixOf message = true)
    (hstok : (pySplit message)[2]? = some stok)
    (hdc : st.datacenter = none) :
    step st record = .ok (st, []) := by
  unfold step
  rw [hsplit]
  simp only [hts, not_running_of_returning hrtn, not_retrieving_of_returning hrtn,
    Bool.false_eq_true, if_false, hrtn, if_true, hstok, hdc]

/-- A completion-marker line with fewer than three tokens aborts the run with
an `IndexError` (line 35), before the pending-request test of line 36. -/
theorem step_return_short (st : MState) {record rdate rtime message : List Char}
    {ts : Timestamp}
    (hsplit : pySplitMax2 record = [rdate, rtime, message])
    (hts : strptimeDT rdate rtime = some ts)
    (hrtn : returningPfx.isPrefixOf message = true)
    (h3 : (pySplit message).length < 3) :
    step st record = .error .indexError := by
  have h2 : (pySplit message)[2]? = none := List.getElem?_eq_none (by omega)
  unfold step
  rw [hsplit]
  simp only [hts, not_running_of_returning hrtn, not_retrieving_of_returning hrtn,
    Bool.false_eq_true, if_false, hrtn, if_true, h2]

/-! ### Unfolding equations for `runFrom` -/

/-- Running over no lines writes nothing. -/
theorem runFrom_nil (st : MState) : runFrom st [] = ([], .ok st) := rfl

/-- Running over `l :: ls` after a successful `step` on `l`. -/
theorem runFrom_cons_ok {st st' : MState} {rs : List Row} {l : List Char}
    (ls : List (List Char)) (h : step st l = .ok (st', rs)) :
    runFrom st (l :: ls) = (rs ++ (runFrom st' ls).1, (runFrom st' ls).2) := by
  simp only [runFrom, h]

/-- Exhaustive description of what one successful `step` can do: skip or idle
leaving the state intact, process a start marker, process a file marker, or
emit one completed row. -/
theorem step_inv (st : MState) (record : List Char) (st' : MState) (rs : List Row)
    (h : step st record = .ok (st', rs)) :
    (isStartMarker record = false ∧ st' = st ∧ rs = []) ∨
    (isStartMarker record = true ∧ rs = [] ∧
      ∃ (ts : Timestamp) (dc req : List Char), lineTs record = some ts ∧ st' = ⟨some dc, st.filename, ts, req⟩) ∨
    (isStartMarker record = false ∧ rs = [] ∧
      ∃ f, st' = ⟨st.datacenter, f, st.starttime, st.request⟩) ∨
    (isStartMarker record = false ∧ isCompletionMarker record = true ∧
      st' = ⟨none, [], st.starttime, st.request⟩ ∧
      ∃ (ts : Timestamp) (dc stok : List Char), lineTs record = some ts ∧ st.datacenter = some dc ∧
        rs = [⟨fmtDT st.starttime, dc, st.request, st.filename, stok.take 4,
               totalSecondsStr (secsI ts - secsI st.starttime)⟩]) := by
  unfold step at h
  split at h
  next rdate rtime message heq =>
    split at h
    next htime =>
      simp only [Except.ok.injEq, Prod.mk.injEq] at h
      exact Or.inl ⟨by simp [isStartMarker, heq, htime], h.1.symm, h.2.symm⟩
    next logtime htime =>
      split at h
      next hrun =>
        split at h
        next dc req h3 h8 =>
          simp only [Except.ok.injEq, Prod.mk.injEq] at h
          refine Or.inr (Or.inl ⟨by simp [isStartMarker, heq, htime, hrun], h.2.symm,
            logtime, dc, req, ?_, h.1.symm⟩)
          simp [lineTs, heq, htime]
        next x y hne => exact absurd h (by simp)
      next hrun =>
        split at h
        next hret =>
          simp only [Except.ok.injEq, Prod.mk.injEq] at h
          refine Or.inr (Or.inr (Or.inl ⟨by simp [isStartMarker, heq, htime, hrun], h.2.symm,
            pyStrip (message.drop 16), h.1.symm⟩))
        next hret =>
          split at h
          next hrtn =>
            split at h
            next hstok => exact absurd h (by simp)
            next stok hstok =>
              split at h
              next dc hdc =>
                simp only [Except.ok.injEq, Prod.mk.injEq] at h
                refine Or.inr (Or.inr (Or.inr ⟨by simp [isStartMarker, heq, htime, hrun],
                  by simp [isCompletionMarker, heq, htime, hrtn], h.1.symm,
                  logtime, dc, stok, ?_, hdc, h.2.symm⟩))
                simp [lineTs, heq, htime]
              next hdc =>
                simp only [Except.ok.injEq, Prod.mk.injEq] at h
                exact Or.inl ⟨by simp [isStartMarker, heq, htime, hrun], h.1.symm, h.2.symm⟩
          next hrtn =>
            simp only [Except.ok.injEq, Prod.mk.injEq] at h
            exact Or.inl ⟨by simp [isStartMarker, heq, htime, hrun], h.1.symm, h.2.symm⟩
  next x hne =>
    simp only [Except.ok.injEq, Prod.mk.injEq] at h
    refine Or.inl ⟨?_, h.1.symm, h.2.symm⟩
    unfold isStartMarker
    split
    next a b c heq2 => exact absurd heq2 (hne a b c)
    next => rfl

/-- The most recent start line is one of the input lines. -/
theorem lastStartLine_mem {ls : List (List Char)} {l : List Char}
    (h : lastStartLine ls = some l) : l ∈ ls := by
  induction ls with
  | nil => simp [lastStartLine] at h
  | cons a ls ih =>
    simp only [lastStartLine] at h
    cases hl : lastStartLine ls with
    | some l' => rw [hl] at h; exact List.mem_cons_of_mem a (ih (hl.trans h))
    | none =>
      rw [hl] at h
      by_cases ha : isStartMarker a = true
      · rw [if_pos ha] at h
        cases h
        exact List.mem_cons_self _ _
      · rw [if_neg ha] at h
        cases h

/-- Invariant of a successful run: while a request is pending, `starttime`
is the timestamp of the most recent start line (or was inherited unchanged
from the initial state if the input holds no start line). -/
theorem runFrom_lastStart (ls : List (List Char)) : ∀ st0 st : MState,
    (runFrom st0 ls).2 = .ok st → st.datacenter.isSome = true →
    (∃ lst, lastStartLine ls = some lst ∧ lineTs lst = some st.starttime) ∨
    (lastStartLine ls = none ∧ st.starttime = st0.starttime ∧
      st0.datacenter.isSome = true) := by
  induction ls with
  | nil =>
    intro st0 st h hdc
    simp only [runFrom, Except.ok.injEq] at h
    subst h
    exact Or.inr ⟨rfl, rfl, hdc⟩
  | cons l ls ih =>
    intro st0 st h hdc
    cases hstep : step st0 l with
    | error e => rw [runFrom, hstep] at h; simp at h
    | ok p =>
      obtain ⟨st1, rs⟩ := p
      rw [runFrom_cons_ok ls hstep] at h
      have ihh := ih st1 st h hdc
      rcases ihh with ⟨lst, hl, hlts⟩ | ⟨hnone, hstt, hdc1⟩
      · exact Or.inl ⟨lst, by simp [lastStartLine, hl], hlts⟩
      · rcases step_inv st0 l st1 rs hstep with
          ⟨hns, hst, hrs⟩ | ⟨hs, hrs, ts, dc, req, hts, hst⟩ |
          ⟨hns, hrs, f, hst⟩ | ⟨hns, hcm, hst, ts, dc, stok, hts, hdc0, hrs⟩
        · exact Or.inr ⟨by simp [lastStartLine, hnone, hns], by rw [hstt, hst],
            by rw [hst] at hdc1; exact hdc1⟩
        · refine Or.inl ⟨l, by simp [lastStartLine, hnone, hs], ?_⟩
          rw [hts, hstt, hst]
        · exact Or.inr ⟨by simp [lastStartLine, hnone, hns],
            by rw [hstt, hst], by rw [hst] at hdc1; exact hdc1⟩
        · rw [hst] at hdc1; simp at hdc1

/-- A run writes at most one row per completion marker, and at most one row
per start marker beyond an initially pending request. -/
theorem runFrom_count (ls : List (List Char)) : ∀ st : MState,
    (runFrom st ls).1.length ≤ countCompletion ls ∧
    (runFrom st ls).1.length ≤ dcNat st + countStart ls := by
  induction ls with
  | nil => intro st; simp [runFrom, countCompletion, countStart]
  | cons l ls ih =>
    intro st
    have hcc : countCompletion (l :: ls) =
        countCompletion ls + (if isCompletionMarker l then 1 else 0) := by
      simp [countCompletion, List.countP_cons]
    have hcs : countStart (l :: ls) =
        countStart ls + (if isStartMarker l then 1 else 0) := by
      simp [countStart, List.countP_cons]
    cases hstep : step st l with
    | error e =>
      rw [runFrom, hstep]
      simp
    | ok p =>
      obtain ⟨st1, rs⟩ := p
      rw [runFrom_cons_ok ls hstep]
      have ihh := ih st1
      simp only [List.length_append]
      rcases step_inv st l st1 rs hstep with
        ⟨hns, hst, hrs⟩ | ⟨hs, hrs, ts, dc, req, hts, hst⟩ |
        ⟨hns, hrs, f, hst⟩ | ⟨hns, hcm, hst, ts, dc, stok, hts, hdc0, hrs⟩
      · have h1 : dcNat st1 = dcNat st := by rw [hst]
        rw [hrs] at *
        constructor
        · simp only [List.length_nil, Nat.zero_add, hcc]
          exact le_trans ihh.1 (Nat.le_add_right _ _)
        · simp only [List.length_nil, Nat.zero_add, hcs]
          calc (runFrom st1 ls).1.length ≤ dcNat st1 + countStart ls := ihh.2
            _ = dcNat st + countStart ls := by rw [h1]
            _ ≤ dcNat st + (countStart ls + (if isStartMarker l then 1 else 0)) := by omega
      · have h1 : dcNat st1 = 1 := by rw [hst]; simp [dcNat]
        rw [hrs] at *
        constructor
        · simp only [List.length_nil, Nat.zero_add, hcc]
          exact le_trans ihh.1 (Nat.le_add_right _ _)
        · simp only [List.length_nil, Nat.zero_add, hcs, hs, if_true]
          have := ihh.2
          rw [h1] at this
          have h0 : 0 ≤ dcNat st := Nat.zero_le _
          omega
      · have h1 : dcNat st1 = dcNat st := by rw [hst]; simp [dcNat]
        rw [hrs] at *
        constructor
        · simp only [List.length_nil, Nat.zero_add, hcc]
          exact le_trans ihh.1 (Nat.le_add_right _ _)
        · simp only [List.length_nil, Nat.zero_add, hcs]
          have := ihh.2
          rw [h1] at this
          omega
      · have h1 : dcNat st1 = 0 := by rw [hst]; simp [dcNat]
        have h2 : dcNat st = 1 := by simp [dcNat, hdc0]
        rw [hrs] at *
        constructor
        · simp only [List.length_singleton, hcc, hcm, if_true]
          have := ihh.1
          omega
        · simp only [List.length_singleton, hcs]
          have := ihh.2
          rw [h1] at this
          omega

/-! ### The claims -/

/-- Claim C1, counterexample: a run in which a file marker stores
`/data/abc.dat` and a well-formed start marker follows; processing the start
marker leaves `filename` holding `/data/abc.dat`, so the claimed reset of
`filename` to the empty string does not happen. -/
theorem c1_filename_not_reset_cex :
    (run ["2024/01/15 09:59:58 Retrieving file /data/abc.dat".data,
          "2024/01/15 10:00:00 Running getData x DC1 a b c d REQ123".data]).2 =
      .ok ⟨some "DC1".data, "/data/abc.dat".data, ⟨2024, 1, 15, 10, 0, 0⟩,
        "REQ123".data⟩ ∧
    "/data/abc.dat".data ≠ ([] : List Char) := by decide

/-- Claim C1 (amended): processing a line classified as a start marker whose
timestamp parses sets `datacenter` to the message token at index 3, `request`
to the token at index 8 and `starttime` to the line's timestamp, emits
nothing, and leaves `filename` unchanged — the code does not reset it. -/
theorem c1_start_marker_sets_pending_keeps_filename
    (st : MState) (record rdate rtime message dc req : List Char) (ts : Timestamp)
    (hsplit : pySplitMax2 record = [rdate, rtime, message])
    (hts : strptimeDT rdate rtime = some ts)
    (hrun : runningPfx.isPrefixOf message = true)
    (h3 : (pySplit message)[3]? = some dc)
    (h8 : (pySplit message)[8]? = some req) :
    step st record = .ok (⟨some dc, st.filename, ts, req⟩, []) :=
  step_start st hsplit hts hrun h3 h8

/-- Claim C1 witness. -/
theorem c1_witness :
    step (⟨none, "/old/name".data, ⟨2023, 5, 5, 1, 2, 3⟩, "R0".data⟩ : MState)
        "2024/01/15 10:00:00 Running getData x DC1 a b c d REQ123".data =
      .ok (⟨some "DC1".data, "/old/name".data, ⟨2024, 1, 15, 10, 0, 0⟩,
        "REQ123".data⟩, []) :=
  c1_start_marker_sets_pending_keeps_filename _ _
    "2024/01/15".data "10:00:00".data "Running getData x DC1 a b c d REQ123".data
    "DC1".data "REQ123".data ⟨2024, 1, 15, 10, 0, 0⟩
    (by decide) (by decide) (by decide) (by decide) (by decide)

/-- Claim C2, counterexample: a file marker processed while `datacenter` is
null stores a filename that a later start marker does not clear, so it
appears in the next emitted record — it does have an effect. -/
theorem c2_stored_filename_affects_record_cex :
    records ["2024/01/15 09:59:58 Retrieving file /data/abc.dat".data,
             "2024/01/15 10:00:00 Running getData x DC1 a b c d REQ123".data,
             "2024/01/15 10:00:05 Returning status 2000 OK".data] =
      [⟨"2024-01-15 10:00:00".data, "DC1".data, "REQ123".data,
        "/data/abc.dat".data, "2000".data, "5.0".data⟩] ∧
    "/data/abc.dat".data ≠ ([] : List Char) := by decide

/-- Claim C2 (amended): a file marker processed while no pending request is
active stores the filename, and the value persists: a following start marker
does not reset it, and it is emitted in the record completed by a following
completion marker when no other file marker intervenes. -/
theorem c2_stored_filename_persists
    (st : MState) (hdc : st.datacenter = none)
    (l1 d1 t1 m1 l2 d2 t2 m2 l3 d3 t3 m3 : List Char)
    (ts1 ts2 ts3 : Timestamp) (dc req stok : List Char)
    (hsplit1 : pySplitMax2 l1 = [d1, t1, m1])
    (hts1 : strptimeDT d1 t1 = some ts1)
    (hret1 : retrievingPfx.isPrefixOf m1 = true)
    (hsplit2 : pySplitMax2 l2 = [d2, t2, m2])
    (hts2 : strptimeDT d2 t2 = some ts2)
    (hrun2 : runningPfx.isPrefixOf m2 = true)
    (h23 : (pySplit m2)[3]? = some dc)
    (h28 : (pySplit m2)[8]? = some req)
    (hsplit3 : pySplitMax2 l3 = [d3, t3, m3])
    (hts3 : strptimeDT d3 t3 = some ts3)
    (hrtn3 : returningPfx.isPrefixOf m3 = true)
    (h32 : (pySplit m3)[2]? = some stok) :
    (runFrom st [l1, l2, l3]).1 =
      [⟨fmtDT ts2, dc, req, pyStrip (m1.drop 16), stok.take 4,
        totalSecondsStr (secsI ts3 - secsI ts2)⟩] := by
  have s1 : step st l1 =
      .ok (⟨st.datacenter, pyStrip (m1.drop 16), st.starttime, st.request⟩, []) :=
    step_file st hsplit1 hts1 hret1
  have s2 : step (⟨st.datacenter, pyStrip (m1.drop 16), st.starttime, st.request⟩ : MState) l2 =
      .ok (⟨some dc, pyStrip (m1.drop 16), ts2, req⟩, []) :=
    step_start _ hsplit2 hts2 hrun2 h23 h28
  have s3 : step (⟨some dc, pyStrip (m1.drop 16), ts2, req⟩ : MState) l3 =
      .ok (⟨none, [], ts2, req⟩,
        [⟨fmtDT ts2, dc, req, pyStrip (m1.drop 16), stok.take 4,
          totalSecondsStr (secsI ts3 - secsI ts2)⟩]) :=
    step_return_emit _ hsplit3 hts3 hrtn3 h32 rfl
  rw [runFrom_cons_ok _ s1, runFrom_cons_ok _ s2, runFrom_cons_ok _ s3]
  simp [runFrom_nil]

/-- Claim C2 witness. -/
theorem c2_witness :
    (runFrom initState
      ["2024/01/15 09:00:00 Retrieving file /var/log/x.y".data,
       "2024/01/15 09:00:02 Running getData p DC9 q r s t REQ77".data,
       "2024/01/15 09:00:10 Returning status 3004 failed".data]).1 =
      [⟨"2024-01-15 09:00:02".data, "DC9".data, "REQ77".data,
        pyStrip ("Retrieving file /var/log/x.y".data.drop 16), "3004".data,
        totalSecondsStr (secsI ⟨2024, 1, 15, 9, 0, 10⟩ - secsI ⟨2024, 1, 15, 9, 0, 2⟩)⟩] :=
  c2_stored_filename_persists initState (by decide)
    "2024/01/15 09:00:00 Retrieving file /var/log/x.y".data
    "2024/01/15".data "09:00:00".data "Retrieving file /var/log/x.y".data
    "2024/01/15 09:00:02 Running getData p DC9 q r s t REQ77".data
    "2024/01/15".data "09:00:02".data "Running getData p DC9 q r s t REQ77".data
    "2024/01/15 09:00:10 Returning status 3004 failed".data
    "2024/01/15".data "09:00:10".data "Returning status 3004 failed".data
    ⟨2024, 1, 15, 9, 0, 0⟩ ⟨2024, 1, 15, 9, 0, 2⟩ ⟨2024, 1, 15, 9, 0, 10⟩
    "DC9".data "REQ77".data "3004".data
    (by decide) (by decide) (by decide) (by decide) (by decide) (by decide)
    (by decide) (by decide) (by decide) (by decide) (by decide) (by decide)

/-- Claim C3, counterexample: Scenario A's start line carries "from" at token
index 3 and "X" at token index 8, so its three lines produce the row
`2024-01-15 10:00:00,from,X,/data/abc.dat,2000,5.0`, not the claimed
`2024-01-15 10:00:00,DC1,REQ123,/data/abc.dat,2000,5.0`. -/
theorem c3_scenarioA_claimed_row_cex :
    records scenarioA =
      [⟨"2024-01-15 10:00:00".data, "from".data, "X".data, "/data/abc.dat".data,
        "2000".data, "5.0".data⟩] ∧
    records scenarioA ≠
      [⟨"2024-01-15 10:00:00".data, "DC1".data, "REQ123".data, "/data/abc.dat".data,
        "2000".data, "5.0".data⟩] := by decide

/-- Claim C3 (amended): a completion marker processed while a pending request
is active emits exactly one record carrying the pending start time formatted
as YYYY-MM-DD HH:MM:SS, the pending datacenter and request id, the current
filename, the first four characters of message token 2, and the elapsed
seconds as text, and then clears `datacenter` and `filename`; Scenario A's
three lines produce the row
`2024-01-15 10:00:00,from,X,/data/abc.dat,2000,5.0`. -/
theorem c3_completion_emits_record
    (st : MState) (record rdate rtime message stok dc : List Char) (ts : Timestamp)
    (hsplit : pySplitMax2 record = [rdate, rtime, message])
    (hts : strptimeDT rdate rtime = some ts)
    (hrtn : returningPfx.isPrefixOf message = true)
    (hstok : (pySplit message)[2]? = some stok)
    (hdc : st.datacenter = some dc) :
    step st record =
      .ok (⟨none, [], st.starttime, st.request⟩,
        [⟨fmtDT st.starttime, dc, st.request, st.filename, stok.take 4,
          totalSecondsStr (secsI ts - secsI st.starttime)⟩]) ∧
    records scenarioA =
      [⟨"2024-01-15 10:00:00".data, "from".data, "X".data, "/data/abc.dat".data,
        "2000".data, "5.0".data⟩] :=
  ⟨step_return_emit st hsplit hts hrtn hstok hdc, by decide⟩

/-- Claim C3 witness. -/
theorem c3_witness :
    step (⟨some "from".data, "/data/abc.dat".data, ⟨2024, 1, 15, 10, 0, 0⟩,
        "X".data⟩ : MState) "2024/01/15 10:00:05 Returning status 2000 OK".data =
      .ok (⟨none, [], ⟨2024, 1, 15, 10, 0, 0⟩, "X".data⟩,
        [⟨fmtDT ⟨2024, 1, 15, 10, 0, 0⟩, "from".data, "X".data, "/data/abc.dat".data,
          "2000".data.take 4,
          totalSecondsStr (secsI ⟨2024, 1, 15, 10, 0, 5⟩ - secsI ⟨2024, 1, 15, 10, 0, 0⟩)⟩]) ∧
    records scenarioA =
      [⟨"2024-01-15 10:00:00".data, "from".data, "X".data, "/data/abc.dat".data,
        "2000".data, "5.0".data⟩] :=
  c3_completion_emits_record _
    "2024/01/15 10:00:05 Returning status 2000 OK".data
    "2024/01/15".data "10:00:05".data "Returning status 2000 OK".data
    "2000".data "from".data ⟨2024, 1, 15, 10, 0, 5⟩
    (by decide) (by decide) (by decide) (by decide) (by decide)

/-- Claim C4: a line with fewer than three whitespace-separated parts, or
whose first two tokens do not parse under `%Y/%m/%d %H:%M:%S`, is skipped:
nothing is emitted, every state variable is unchanged, no error is raised. -/
theorem c4_malformed_line_skipped (st : MState) (record : List Char)
    (h : (pySplitMax2 record).length < 3 ∨
      ∃ rdate rtime message : List Char,
        pySplitMax2 record = [rdate, rtime, message] ∧
        strptimeDT rdate rtime = none) :
    step st record = .ok (st, []) := by
  rcases h with h | ⟨rdate, rtime, message, hsplit, hts⟩
  · exact step_short st record h
  · exact step_badtime st hsplit hts

/-- Claim C4 witness. -/
theorem c4_witness :
    step initState "too short".data = .ok (initState, []) ∧
    step initState "2024/13/01 10:00:00 Returning status 2000 OK".data =
      .ok (initState, []) :=
  ⟨c4_malformed_line_skipped initState _ (Or.inl (by decide)),
   c4_malformed_line_skipped initState _
     (Or.inr ⟨"2024/13/01".data, "10:00:00".data, "Returning status 2000 OK".data,
       by decide, by decide⟩)⟩

/-- Claim C5: a start marker whose message has fewer than nine tokens, or a
completion marker whose message has fewer than three tokens, raises an
indexing error instead of being silently skipped. -/
theorem c5_malformed_marker_raises (st : MState)
    (record rdate rtime message : List Char) (ts : Timestamp)
    (hsplit : pySplitMax2 record = [rdate, rtime, message])
    (hts : strptimeDT rdate rtime = some ts)
    (h : (runningPfx.isPrefixOf message = true ∧ (pySplit message).length < 9) ∨
         (returningPfx.isPrefixOf message = true ∧ (pySplit message).length < 3)) :
    step st record = .error .indexError := by
  rcases h with ⟨hrun, h9⟩ | ⟨hrtn, h3⟩
  · exact step_start_short st hsplit hts hrun h9
  · exact step_return_short st hsplit hts hrtn h3

/-- Claim C5 witness. -/
theorem c5_witness :
    step initState "2024/01/15 10:00:00 Running getData short".data =
      .error .indexError :=
  c5_malformed_marker_raises initState _ "2024/01/15".data "10:00:00".data
    "Running getData short".data ⟨2024, 1, 15, 10, 0, 0⟩
    (by decide) (by decide) (Or.inl ⟨by decide, by decide⟩)

/-- Claim C6: a well-formed completion marker processed while no request is
pending emits nothing, raises no error, leaves the state unchanged, and the
run continues over the remaining lines as if the marker were not there. -/
theorem c6_completion_without_pending_noop (st : MState)
    (record rdate rtime message stok : List Char) (ts : Timestamp)
    (hsplit : pySplitMax2 record = [rdate, rtime, message])
    (hts : strptimeDT rdate rtime = some ts)
    (hrtn : returningPfx.isPrefixOf message = true)
    (hstok : (pySplit message)[2]? = some stok)
    (hdc : st.datacenter = none) :
    step st record = .ok (st, []) ∧
    ∀ ls, runFrom st (record :: ls) = runFrom st ls := by
  have h1 := step_return_idle st hsplit hts hrtn hstok hdc
  refine ⟨h1, fun ls => ?_⟩
  rw [runFrom_cons_ok ls h1]
  simp

/-- Claim C6 witness. -/
theorem c6_witness :
    step initState "2024/01/15 10:00:05 Returning status 2000 OK".data =
      .ok (initState, []) ∧
    ∀ ls, runFrom initState
        ("2024/01/15 10:00:05 Returning status 2000 OK".data :: ls) =
      runFrom initState ls :=
  c6_completion_without_pending_noop initState _
    "2024/01/15".data "10:00:05".data "Returning status 2000 OK".data
    "2000".data ⟨2024, 1, 15, 10, 0, 5⟩
    (by decide) (by decide) (by decide) (by decide) (by decide)

/-- Claim C10: on a completion marker the status token is extracted before
the pending-request test, so a "Returning status" message with fewer than
three tokens raises an indexing error even while `datacenter` is null. -/
theorem c10_status_extracted_before_pending_check (st : MState)
    (record rdate rtime message : List Char) (ts : Timestamp)
    (hsplit : pySplitMax2 record = [rdate, rtime, message])
    (hts : strptimeDT rdate rtime = some ts)
    (hrtn : returningPfx.isPrefixOf message = true)
    (hshort : (pySplit message).length < 3)
    (hdc : st.datacenter = none) :
    step st record = .error .indexError :=
  step_return_short st hsplit hts hrtn hshort

/-- Claim C10 witness. -/
theorem c10_witness :
    step initState "2024/01/15 10:00:00 Returning status".data =
      .error .indexError :=
  c10_status_extracted_before_pending_check initState _
    "2024/01/15".data "10:00:00".data "Returning status".data
    ⟨2024, 1, 15, 10, 0, 0⟩ (by decide) (by decide) (by decide) (by decide) rfl

/-- Claim C7: a start marker for one request followed by a second start
marker with no completion in between, then one completion marker, emits
exactly one record, carrying the second request's id and start time; when the
two ids differ, no emitted record carries the first id. -/
theorem c7_second_start_wins
    (l1 d1 t1 m1 l2 d2 t2 m2 l3 d3 t3 m3 : List Char)
    (tsA tsB tsC : Timestamp) (dcA reqA dcB reqB stok : List Char)
    (hsplit1 : pySplitMax2 l1 = [d1, t1, m1])
    (hts1 : strptimeDT d1 t1 = some tsA)
    (hrun1 : runningPfx.isPrefixOf m1 = true)
    (h13 : (pySplit m1)[3]? = some dcA)
    (h18 : (pySplit m1)[8]? = some reqA)
    (hsplit2 : pySplitMax2 l2 = [d2, t2, m2])
    (hts2 : strptimeDT d2 t2 = some tsB)
    (hrun2 : runningPfx.isPrefixOf m2 = true)
    (h23 : (pySplit m2)[3]? = some dcB)
    (h28 : (pySplit m2)[8]? = some reqB)
    (hsplit3 : pySplitMax2 l3 = [d3, t3, m3])
    (hts3 : strptimeDT d3 t3 = some tsC)
    (hrtn3 : returningPfx.isPrefixOf m3 = true)
    (h32 : (pySplit m3)[2]? = some stok) :
    records [l1, l2, l3] =
      [⟨fmtDT tsB, dcB, reqB, [], stok.take 4,
        totalSecondsStr (secsI tsC - secsI tsB)⟩] ∧
    (reqA ≠ reqB → ∀ r ∈ records [l1, l2, l3], r.request ≠ reqA) := by
  have s1 : step initState l1 = .ok (⟨some dcA, [], tsA, reqA⟩, []) :=
    step_start initState hsplit1 hts1 hrun1 h13 h18
  have s2 : step (⟨some dcA, [], tsA, reqA⟩ : MState) l2 =
      .ok (⟨some dcB, [], tsB, reqB⟩, []) :=
    step_start _ hsplit2 hts2 hrun2 h23 h28
  have s3 : step (⟨some dcB, [], tsB, reqB⟩ : MState) l3 =
      .ok (⟨none, [], tsB, reqB⟩,
        [⟨fmtDT tsB, dcB, reqB, [], stok.take 4,
          totalSecondsStr (secsI tsC - secsI tsB)⟩]) :=
    step_return_emit _ hsplit3 hts3 hrtn3 h32 rfl
  have hrec : records [l1, l2, l3] =
      [⟨fmtDT tsB, dcB, reqB, [], stok.take 4,
        totalSecondsStr (secsI tsC - secsI tsB)⟩] := by
    unfold records run
    rw [runFrom_cons_ok _ s1, runFrom_cons_ok _ s2, runFrom_cons_ok _ s3]
    simp [runFrom_nil]
  refine ⟨hrec, fun hne r hr => ?_⟩
  rw [hrec] at hr
  rw [List.mem_singleton] at hr
  rw [hr]
  exact fun hcon => hne hcon.symm

/-- Claim C7 witness. -/
theorem c7_witness :
    records ["2024/01/15 10:00:00 Running getData x DCA a b c d REQ_A".data,
             "2024/01/15 10:00:01 Running getData x DCB a b c d REQ_B".data,
             "2024/01/15 10:00:05 Returning status 2000 OK".data] =
      [⟨fmtDT ⟨2024, 1, 15, 10, 0, 1⟩, "DCB".data, "REQ_B".data, [],
        "2000".data.take 4,
        totalSecondsStr (secsI ⟨2024, 1, 15, 10, 0, 5⟩ - secsI ⟨2024, 1, 15, 10, 0, 1⟩)⟩] ∧
    ("REQ_A".data ≠ "REQ_B".data →
      ∀ r ∈ records ["2024/01/15 10:00:00 Running getData x DCA a b c d REQ_A".data,
                     "2024/01/15 10:00:01 Running getData x DCB a b c d REQ_B".data,
                     "2024/01/15 10:00:05 Returning status 2000 OK".data],
        r.request ≠ "REQ_A".data) :=
  c7_second_start_wins
    "2024/01/15 10:00:00 Running getData x DCA a b c d REQ_A".data
    "2024/01/15".data "10:00:00".data "Running getData x DCA a b c d REQ_A".data
    "2024/01/15 10:00:01 Running getData x DCB a b c d REQ_B".data
    "2024/01/15".data "10:00:01".data "Running getData x DCB a b c d REQ_B".data
    "2024/01/15 10:00:05 Returning status 2000 OK".data
    "2024/01/15".data "10:00:05".data "Returning status 2000 OK".data
    ⟨2024, 1, 15, 10, 0, 0⟩ ⟨2024, 1, 15, 10, 0, 1⟩ ⟨2024, 1, 15, 10, 0, 5⟩
    "DCA".data "REQ_A".data "DCB".data "REQ_B".data "2000".data
    (by decide) (by decide) (by decide) (by decide) (by decide)
    (by decide) (by decide) (by decide) (by decide) (by decide)
    (by decide) (by decide) (by decide) (by decide)

/-- Claim C8: a record emitted by a completion line carries, as its seconds
field, exactly the difference between that line's timestamp and the
timestamp of the most recent start line of the preceding input; the
difference is non-negative whenever the timestamps of the input lines are in
non-decreasing order. -/
theorem c8_elapsed_eq_last_start_diff
    (lines : List (List Char)) (l : List Char) (st st' : MState)
    (rs : List Row) (r : Row)
    (hpre : (run lines).2 = .ok st)
    (hstep : step st l = .ok (st', rs)) (hr : r ∈ rs) :
    ∃ (tc ts0 : Timestamp) (lst : List Char),
      lineTs l = some tc ∧ lastStartLine lines = some lst ∧
      lineTs lst = some ts0 ∧
      r.seconds = totalSecondsStr (secsI tc - secsI ts0) ∧
      (List.Pairwise (fun a b => secsI a ≤ secsI b)
          ((lines ++ [l]).filterMap lineTs) →
        0 ≤ secsI tc - secsI ts0) := by
  rcases step_inv st l st' rs hstep with
    ⟨hns, hst, hrs⟩ | ⟨hs, hrs, ts, dc, req, hts, hst⟩ |
    ⟨hns, hrs, f, hst⟩ | ⟨hns, hcm, hst, tc, dc, stok, htc, hdc, hrs⟩
  · rw [hrs] at hr; cases hr
  · rw [hrs] at hr; cases hr
  · rw [hrs] at hr; cases hr
  · have hsome : st.datacenter.isSome = true := by rw [hdc]; rfl
    rcases runFrom_lastStart lines initState st hpre hsome with
      ⟨lst, hlast, hlts⟩ | ⟨hnone, hstt, hinit⟩
    · refine ⟨tc, st.starttime, lst, htc, hlast, hlts, ?_, ?_⟩
      · rw [hrs] at hr
        rw [List.mem_singleton] at hr
        rw [hr]
      · intro hp
        rw [List.filterMap_append] at hp
        rcases List.pairwise_append.mp hp with ⟨hp1, hp2, hrel⟩
        have hmem : st.starttime ∈ lines.filterMap lineTs :=
          List.mem_filterMap.mpr ⟨lst, lastStartLine_mem hlast, hlts⟩
        have hmem2 : tc ∈ List.filterMap lineTs [l] := by simp [htc]
        have := hrel st.starttime hmem tc hmem2
        omega
    · exact absurd hinit (by simp [initState])

/-- Claim C8 witness: Scenario A with the completion line as the emitting
line. -/
theorem c8_witness :
    ∃ (tc ts0 : Timestamp) (lst : List Char),
      lineTs scenLine3 = some tc ∧
      lastStartLine [scenLine1, scenLine2] = some lst ∧
      lineTs lst = some ts0 ∧
      Row.seconds ⟨"2024-01-15 10:00:00".data, "from".data, "X".data,
          "/data/abc.dat".data, "2000".data, "5.0".data⟩ =
        totalSecondsStr (secsI tc - secsI ts0) ∧
      (List.Pairwise (fun a b => secsI a ≤ secsI b)
          (([scenLine1, scenLine2] ++ [scenLine3]).filterMap lineTs) →
        0 ≤ secsI tc - secsI ts0) :=
  c8_elapsed_eq_last_start_diff [scenLine1, scenLine2] scenLine3
    ⟨some "from".data, "/data/abc.dat".data, ⟨2024, 1, 15, 10, 0, 0⟩, "X".data⟩
    ⟨none, [], ⟨2024, 1, 15, 10, 0, 0⟩, "X".data⟩
    [⟨"2024-01-15 10:00:00".data, "from".data, "X".data, "/data/abc.dat".data,
      "2000".data, "5.0".data⟩]
    ⟨"2024-01-15 10:00:00".data, "from".data, "X".data, "/data/abc.dat".data,
      "2000".data, "5.0".data⟩
    (by decide) (by decide) (by decide)

/-- Claim C9: a run emits at most one record per completion marker and at
most one record per start marker. -/
theorem c9_records_le_marker_counts (lines : List (List Char)) :
    (records lines).length ≤ countCompletion lines ∧
    (records lines).length ≤ countStart lines := by
  have h := runFrom_count lines initState
  have hdc : dcNat initState = 0 := by simp [dcNat, initState]
  unfold records run
  refine ⟨h.1, ?_⟩
  have h2 := h.2
  rw [hdc] at h2
  simpa using h2

end GetDataLog
